import Mathlib

/-!
Verification of the EmailAlies persistence/sync subsystem.

The definitions below are a shallow embedding of the repository's
storage adapter (`DatabaseManager` in `src/database/db.ts`, bundled into
`src/src/app/api/auth/login/route.ts`), the sync service
(`src/lib/sync.ts`, provided as `src/unnamed/part_001`), the alias
route handlers (`src/src/app/api/aliases/[id]/route.ts`) and the key
manager (`src/scripts/init-admin-users.js`).

Machine-level conventions of the embedding:
* server timestamps (`DATETIME DEFAULT CURRENT_TIMESTAMP`) are modelled
  as a `Nat` logical clock held in the database state; every row write
  advances the clock, so successive writes receive strictly increasing
  stamps;
* SQL result sets are Lean lists; `ORDER BY ... DESC/ASC` is an
  insertion sort on the relevant column;
* fallible operations (SQL constraint violations, the broken
  `sync_data` read path) return `Except`/`Option`.
-/

/-- Row of the `email_aliases` table.  The source column is named
`alias`; that word is reserved in Lean, so the field is `aliasStr`. -/
structure AliasRow where
  id : String
  userId : String
  aliasStr : String
  description : Option String
  forwardingEmail : String
  isActive : Bool
  createdAt : Nat
  updatedAt : Nat
deriving DecidableEq, Repr

/-- Row of the `emails` table. -/
structure EmailRow where
  id : String
  aliasId : String
  fromEmail : String
  toEmail : String
  subject : String
  content : String
  isRead : Bool
  receivedAt : Nat
deriving DecidableEq, Repr

/-- Row of the `sync_data` table (the append-only sync log). -/
structure SyncRow where
  id : String
  userId : String
  deviceId : String
  dataType : String
  dataId : String
  encryptedData : String
  operation : String
  timestamp : Nat
deriving DecidableEq, Repr

/-- Row of the `devices` table. -/
structure DeviceRow where
  id : String
  userId : String
  deviceName : String
  deviceKey : String
  lastSync : Nat
  createdAt : Nat
deriving DecidableEq, Repr

/-- The database state seen by one `DatabaseManager` instance, plus the
server clock that assigns `CURRENT_TIMESTAMP` values. -/
structure DB where
  aliases : List AliasRow
  emails : List EmailRow
  syncData : List SyncRow
  devices : List DeviceRow
  now : Nat
deriving DecidableEq, Repr

/-- Insert `x` into a list kept in descending `key` order (used for
`ORDER BY ... DESC`). -/
def insertDesc (key : α → Nat) (x : α) : List α → List α
  | [] => [x]
  | y :: ys => if key y < key x then x :: y :: ys else y :: insertDesc key x ys

/-- Sort a result set in descending `key` order. -/
def sortDesc (key : α → Nat) (l : List α) : List α :=
  l.foldr (insertDesc key) []

/-- Insert `x` into a list kept in ascending `key` order (used for
`ORDER BY ... ASC`). -/
def insertAsc (key : α → Nat) (x : α) : List α → List α
  | [] => [x]
  | y :: ys => if key x < key y then x :: y :: ys else y :: insertAsc key x ys

/-- Sort a result set in ascending `key` order. -/
def sortAsc (key : α → Nat) (l : List α) : List α :=
  l.foldr (insertAsc key) []

theorem mem_insertDesc (key : α → Nat) (x : α) (l : List α) (a : α) :
    a ∈ insertDesc key x l ↔ a = x ∨ a ∈ l := by
  induction l with
  | nil => simp [insertDesc]
  | cons y ys ih =>
    simp only [insertDesc]
    split
    · simp
    · simp [ih]; tauto

theorem mem_sortDesc (key : α → Nat) (l : List α) (a : α) :
    a ∈ sortDesc key l ↔ a ∈ l := by
  induction l with
  | nil => simp [sortDesc]
  | cons y ys ih =>
    simp only [sortDesc, List.foldr] at *
    rw [mem_insertDesc]
    simp [ih]

theorem mem_insertAsc (key : α → Nat) (x : α) (l : List α) (a : α) :
    a ∈ insertAsc key x l ↔ a = x ∨ a ∈ l := by
  induction l with
  | nil => simp [insertAsc]
  | cons y ys ih =>
    simp only [insertAsc]
    split
    · simp
    · simp [ih]; tauto

theorem mem_sortAsc (key : α → Nat) (l : List α) (a : α) :
    a ∈ sortAsc key l ↔ a ∈ l := by
  induction l with
  | nil => simp [sortAsc]
  | cons y ys ih =>
    simp only [sortAsc, List.foldr] at *
    rw [mem_insertAsc]
    simp [ih]

theorem sortAsc_nil (key : α → Nat) : sortAsc key ([] : List α) = [] := rfl

theorem sortDesc_nil (key : α → Nat) : sortDesc key ([] : List α) = [] := rfl

/-- `getAliasesByUserId`: `SELECT * FROM email_aliases WHERE user_id = ?
ORDER BY created_at DESC`. -/
def getAliasesByUserId (s : DB) (userId : String) : List AliasRow :=
  sortDesc (fun a => a.createdAt) (s.aliases.filter (fun a => a.userId == userId))

/-- `createAlias`: `INSERT INTO email_aliases ...`.  The schema declares
`id TEXT PRIMARY KEY` and `alias TEXT UNIQUE NOT NULL`, so the insert
fails (SQLITE_CONSTRAINT) when either collides with an existing row;
otherwise the row is appended with engine-assigned timestamps. -/
def createAlias (s : DB) (id userId aliasStr : String) (description : Option String)
    (forwardingEmail : String) (isActive : Bool) : Except String DB :=
  if s.aliases.any (fun a => a.id == id || a.aliasStr == aliasStr) then
    .error "UNIQUE constraint failed: email_aliases.alias"
  else
    .ok { s with
      aliases := s.aliases ++
        [{ id := id, userId := userId, aliasStr := aliasStr, description := description,
           forwardingEmail := forwardingEmail, isActive := isActive,
           createdAt := s.now, updatedAt := s.now }],
      now := s.now + 1 }

/-- The update payload accepted by the `PUT /api/aliases/[id]` route:
`z.object  with optional description and isActive` — both fields may be
absent. -/
structure UpdateAliasReq where
  description : Option String
  isActive : Option Bool
deriving DecidableEq, Repr

/-- `updateAlias`: `UPDATE email_aliases SET description = ?, is_active = ?,
updated_at = CURRENT_TIMESTAMP WHERE id = ?` bound to
`[updates.description, updates.isActive ? 1 : 0, id]`.  An absent
`isActive` is `undefined`, and `undefined ? 1 : 0` evaluates to `0`, so
that binding is always a number and an omitted flag is stored as false.
An absent `description`, however, binds `undefined` itself, which both
better-sqlite3 and D1 reject at bind time — the statement throws before
executing and the row is unchanged.  A supplied description is bound as
a string and the update runs. -/
def updateAlias (s : DB) (id : String) (updates : UpdateAliasReq) : Except String DB :=
  match updates.description with
  | none => .error "TypeError: can only bind numbers, strings, bigints, buffers, and null"
  | some d =>
    .ok { s with
      aliases := s.aliases.map (fun a =>
        if a.id == id then
          { a with
            description := some d,
            isActive := updates.isActive == some true,
            updatedAt := s.now }
        else a),
      now := s.now + 1 }

/-- First phase of `deleteAlias`: `DELETE FROM emails WHERE alias_id = ?`. -/
def deleteEmailsOfAlias (s : DB) (aliasId : String) : DB :=
  { s with emails := s.emails.filter (fun e => !(e.aliasId == aliasId)) }

/-- Second phase of `deleteAlias`: `DELETE FROM email_aliases WHERE id = ?`. -/
def deleteAliasRow (s : DB) (id : String) : DB :=
  { s with aliases := s.aliases.filter (fun a => !(a.id == id)) }

/-- `deleteAlias`: deletes the associated emails first, then the alias
row, exactly in the order of the two `_execute` calls in the source. -/
def deleteAlias (s : DB) (id : String) : DB :=
  deleteAliasRow (deleteEmailsOfAlias s id) id

/-- `getEmailsByAliasId`: `SELECT * FROM emails WHERE alias_id = ?
ORDER BY received_at DESC`. -/
def getEmailsByAliasId (s : DB) (aliasId : String) : List EmailRow :=
  sortDesc (fun e => e.receivedAt) (s.emails.filter (fun e => e.aliasId == aliasId))

/-- `updateDeviceLastSync`: `UPDATE devices SET last_sync =
CURRENT_TIMESTAMP WHERE id = ?`. -/
def updateDeviceLastSync (s : DB) (deviceId : String) : DB :=
  { s with
    devices := s.devices.map (fun d =>
      if d.id == deviceId then { d with lastSync := s.now } else d),
    now := s.now + 1 }

/-- The row set produced by the SQL query inside
`getSyncDataAfterTimestamp`: `SELECT * FROM sync_data WHERE user_id = ?
AND timestamp > ? ORDER BY timestamp ASC`. -/
def windowOf (s : DB) (userId : String) (t : Nat) : List SyncRow :=
  sortAsc (fun e => e.timestamp)
    (s.syncData.filter (fun e => e.userId == userId && t < e.timestamp))

/-- `getSyncDataAfterTimestamp` as executed: the query succeeds, but the
JavaScript row mapper contains `dataId: row.dat-id`, which parses as the
subtraction `row.dat - id` with `id` an undeclared identifier, so mapping
any row raises `ReferenceError`.  With an empty result set the mapper is
never invoked and the call returns `[]`. -/
def getSyncDataAfterTimestamp (s : DB) (userId : String) (t : Nat) :
    Except String (List SyncRow) :=
  if (windowOf s userId t).isEmpty then .ok []
  else .error "ReferenceError: id is not defined"

/-- Value returned by `syncDevice`, plus the database state left behind
(the device bookkeeping write). -/
structure SyncResult where
  aliases : List AliasRow
  syncTimestamp : Nat
  state : DB
deriving DecidableEq, Repr

/-- `SyncService.syncDevice`: captures `syncTimestamp = new Date()`,
reads the change window after `lastSyncTimestamp || new Date(0)` (the
result is bound to `changes` and otherwise unused), recomputes the alias
snapshot from the primary table, and marks the device synced.  The
`userMasterKey` parameter is accepted but never used.  A failure of the
window read (the `dat-id` mapper) propagates as an error. -/
def syncDevice {K : Type} (s : DB) (userId deviceId : String) (_userMasterKey : K)
    (lastSyncTimestamp : Option Nat) : Except String SyncResult :=
  let syncTimestamp := s.now
  match getSyncDataAfterTimestamp s userId (lastSyncTimestamp.getD 0) with
  | .error e => .error e
  | .ok _changes =>
    let aliases := getAliasesByUserId s userId
    let s2 := updateDeviceLastSync s deviceId
    .ok { aliases := aliases, syncTimestamp := syncTimestamp, state := s2 }

/-- Well-formedness of a reachable database state: every sync-log entry
was stamped by the server clock at some past write, so its timestamp is
below the current clock. -/
def WFsync (s : DB) : Prop :=
  ∀ e ∈ s.syncData, e.timestamp < s.now

instance (s : DB) : Decidable (WFsync s) := by
  unfold WFsync; infer_instance

/-- The uniqueness check of the aliases `POST` route:
`(await db.getAliasesByUserId(user.id)).some(a => a.alias === alias)` —
the generated candidate is compared only against the requesting user's
aliases. -/
def aliasTakenForUser (s : DB) (userId candidate : String) : Bool :=
  (getAliasesByUserId s userId).any (fun a => a.aliasStr == candidate)

/-- The `do`/`while` generation loop of the aliases `POST` route.
Candidates are produced by `EmailEncryption.generateAlias` (random,
from `lib/encryption`), modelled as the stream `cands`; `attempts` is
incremented per generated candidate and more than 10 attempts aborts
with the 500 response `Could not generate unique alias`. -/
def pickAlias (s : DB) (userId : String) : List String → Nat → Option String
  | [], _ => none
  | c :: rest, attempts =>
    if attempts + 1 > 10 then none
    else if aliasTakenForUser s userId c then pickAlias s userId rest (attempts + 1)
    else some c

/-- The alias-allocation path of the aliases `POST` route: pick a
candidate that passes the per-user check, then `createAlias`.  A
constraint violation in the insert propagates as an error (caught by
the route's handler as a 500). -/
def allocateAlias (s : DB) (userId : String) (cands : List String) (newId : String)
    (description : Option String) (forwardingEmail : String) :
    Except String (DB × String) :=
  match pickAlias s userId cands 0 with
  | none => .error "Could not generate unique alias"
  | some a =>
    match createAlias s newId userId a description forwardingEmail true with
    | .error e => .error e
    | .ok s2 => .ok (s2, a)

/-- No two rows of an `email_aliases` table state carry the same alias
string (the invariant maintained by the column's UNIQUE constraint). -/
def aliasListUnique (l : List AliasRow) : Prop :=
  l.Pairwise (fun x y => x.aliasStr ≠ y.aliasStr)

instance (l : List AliasRow) : Decidable (aliasListUnique l) := by
  unfold aliasListUnique; infer_instance

theorem aliasListUnique_append (l : List AliasRow) (r : AliasRow)
    (h : aliasListUnique l) (h2 : ∀ b ∈ l, b.aliasStr ≠ r.aliasStr) :
    aliasListUnique (l ++ [r]) := by
  unfold aliasListUnique at *
  rw [List.pairwise_append]
  refine ⟨h, List.pairwise_singleton _ _, fun x hx y hy => ?_⟩
  simp only [List.mem_singleton] at hy
  subst hy
  exact h2 x hx

/-! ### Concrete fixtures used by counterexamples and witnesses -/

/-- A database in which user `uA` owns the alias string `x1`. -/
def sC1 : DB :=
  { aliases := [{ id := "aA", userId := "uA", aliasStr := "x1", description := none,
                  forwardingEmail := "inbox@a.com", isActive := true,
                  createdAt := 0, updatedAt := 0 }],
    emails := [], syncData := [], devices := [], now := 7 }

/-- The state after `allocateAlias sC1 "uB" ["y2"] ...` succeeds. -/
def sC1post : DB :=
  { aliases := [{ id := "aA", userId := "uA", aliasStr := "x1", description := none,
                  forwardingEmail := "inbox@a.com", isActive := true,
                  createdAt := 0, updatedAt := 0 },
                { id := "id9", userId := "uB", aliasStr := "y2", description := none,
                  forwardingEmail := "fwd@b.com", isActive := true,
                  createdAt := 7, updatedAt := 7 }],
    emails := [], syncData := [], devices := [], now := 8 }

/-- C1 (counterexample): the allocation-time uniqueness check is not
global.  In `sC1` the alias string `x1` is already stored (for user
`uA`), yet the check run for a request by user `uB` accepts the
candidate `x1`: it consults only the requesting user's aliases. -/
theorem aliasCheck_not_global_cex :
    aliasTakenForUser sC1 "uB" "x1" = false ∧
    (sC1.aliases.any (fun b => b.aliasStr == "x1")) = true := by
  constructor <;> rfl

/-- C1 (amended): the allocation loop checks the candidate only against
the requesting user's aliases, but a successful allocation still
preserves global uniqueness of stored alias strings, because the
`UNIQUE` constraint on the `alias` column makes the insert fail rather
than store a duplicate. -/
theorem allocateAlias_preserves_global_uniqueness (s : DB) (userId : String)
    (cands : List String) (newId : String) (d : Option String) (fwd : String)
    (s2 : DB) (a : String)
    (huniq : aliasListUnique s.aliases)
    (hok : allocateAlias s userId cands newId d fwd = .ok (s2, a)) :
    aliasListUnique s2.aliases := by
  unfold allocateAlias createAlias at hok
  cases hpick : pickAlias s userId cands 0 with
  | none => rw [hpick] at hok; exact absurd hok (by simp)
  | some c =>
    rw [hpick] at hok
    by_cases hguard : (s.aliases.any fun x => x.id == newId || x.aliasStr == c) = true
    · simp only [hguard, if_true] at hok
      exact absurd hok (by simp)
    · rw [Bool.not_eq_true] at hguard
      simp only [hguard, Bool.false_eq_true, if_false, Except.ok.injEq,
        Prod.mk.injEq] at hok
      obtain ⟨hs2, -⟩ := hok
      rw [← hs2]
      apply aliasListUnique_append _ _ huniq
      intro b hb
      rw [List.any_eq_false] at hguard
      have hb2 := hguard b hb
      simp only [Bool.or_eq_true, beq_iff_eq, not_or] at hb2
      exact hb2.2

/-- C1 (witness for the amended theorem): a concrete allocation on
`sC1` succeeds and the resulting table still has pairwise distinct
alias strings. -/
theorem allocateAlias_preserves_global_uniqueness_witness :
    aliasListUnique sC1.aliases ∧
    allocateAlias sC1 "uB" ["y2"] "id9" none "fwd@b.com" = .ok (sC1post, "y2") ∧
    aliasListUnique sC1post.aliases :=
  ⟨by decide, rfl,
    allocateAlias_preserves_global_uniqueness sC1 "uB" ["y2"] "id9" none "fwd@b.com"
      sC1post "y2" (by decide) rfl⟩

/-! ### Sync window lemmas -/

theorem mem_windowOf (s : DB) (uid : String) (t : Nat) (e : SyncRow) :
    e ∈ windowOf s uid t ↔ e ∈ s.syncData ∧ e.userId = uid ∧ t < e.timestamp := by
  unfold windowOf
  rw [mem_sortAsc, List.mem_filter]
  simp only [Bool.and_eq_true, beq_iff_eq, decide_eq_true_eq, and_assoc]

theorem windowOf_eq_nil (s : DB) (uid : String) (t : Nat)
    (h : ∀ e ∈ s.syncData, e.timestamp ≤ t) : windowOf s uid t = [] := by
  unfold windowOf
  have h0 : s.syncData.filter (fun e => e.userId == uid && t < e.timestamp) = [] := by
    rw [List.filter_eq_nil_iff]
    intro e he
    simp only [Bool.and_eq_true, decide_eq_true_eq, not_and]
    intro _
    exact Nat.not_lt.mpr (h e he)
  rw [h0]
  rfl

/-! ### Claim C2 -/

/-- A database whose sync log holds one entry for user `u1`. -/
def sC2 : DB :=
  { aliases := [], emails := [],
    syncData := [{ id := "s1", userId := "u1", deviceId := "d1", dataType := "alias",
                   dataId := "a1", encryptedData := "", operation := "create",
                   timestamp := 5 }],
    devices := [], now := 9 }

/-- C2 (code bug): the delta read does not return the matching entries.
The SQL window for user `u1` after timestamp 0 is exactly the one stored
entry — precisely what the claim says the call must return — but
`getSyncDataAfterTimestamp` raises instead, because its row mapper
contains `dataId: row.dat-id`, which JavaScript parses as `row.dat - id`
with `id` an undeclared identifier. -/
theorem getSyncDataAfterTimestamp_crashes_on_nonempty_window :
    windowOf sC2 "u1" 0 = sC2.syncData ∧
    getSyncDataAfterTimestamp sC2 "u1" 0 = .error "ReferenceError: id is not defined" :=
  ⟨rfl, rfl⟩

/-! ### Claim C3 -/

/-- C3 (code bug): a sync round that observes any sync-log entry never
returns a `newSyncTimestamp` at all.  On `sC2` — one entry for user
`u1`, read from the epoch — the round's window is nonempty, so
`syncDevice` propagates the `ReferenceError` raised by the
`dataId: row.dat-id` row mapper (JavaScript parses it as `row.dat - id`
with `id` undeclared) and aborts instead of returning a timestamp the
claim could bound.  The write path is broken by the same typo:
`createSyncData`'s `INSERT INTO sync_data (..., dat-id, ...)` is a SQL
syntax error, so no entry can be written concurrently with a round
either. -/
theorem syncDevice_raises_when_entry_observed :
    windowOf sC2 "u1" 0 = sC2.syncData ∧
    syncDevice sC2 "u1" "d1" (0 : Nat) none
      = .error "ReferenceError: id is not defined" :=
  ⟨rfl, rfl⟩

/-! ### Claim C4 -/

/-- C4: if a first `syncDevice` round returns, then — with no writes in
between — the delta window a second round reads when presented the first
round's `newSyncTimestamp` is empty: every logged entry was stamped
before the first round captured its timestamp. -/
theorem syncDevice_second_round_window_empty {K : Type} (s : DB)
    (userId deviceId : String) (key : K) (lastSyncTimestamp : Option Nat)
    (r : SyncResult)
    (hwf : WFsync s)
    (hok : syncDevice s userId deviceId key lastSyncTimestamp = .ok r) :
    windowOf r.state userId r.syncTimestamp = [] := by
  unfold syncDevice at hok
  cases hw : getSyncDataAfterTimestamp s userId (lastSyncTimestamp.getD 0) with
  | error e => rw [hw] at hok; exact absurd hok (by simp)
  | ok ch =>
    rw [hw] at hok
    simp only [Except.ok.injEq] at hok
    subst hok
    apply windowOf_eq_nil
    intro e he
    exact Nat.le_of_lt (hwf e he)

/-- A database with one device registered to `u1`, a foreign user's log
entry, and the clock at 3. -/
def sC4 : DB :=
  { aliases := [], emails := [],
    syncData := [{ id := "s0", userId := "other", deviceId := "d0", dataType := "alias",
                   dataId := "a0", encryptedData := "", operation := "create",
                   timestamp := 2 }],
    devices := [{ id := "d1", userId := "u1", deviceName := "D1", deviceKey := "k",
                  lastSync := 0, createdAt := 0 }],
    now := 3 }

/-- The result of the first sync round on `sC4`. -/
def rC4 : SyncResult :=
  { aliases := [], syncTimestamp := 3, state := updateDeviceLastSync sC4 "d1" }

/-- C4 (witness): a concrete first round succeeds and the second
round's window at its returned timestamp is empty. -/
theorem syncDevice_second_round_window_empty_witness :
    WFsync sC4 ∧
    syncDevice sC4 "u1" "d1" (0 : Nat) none = .ok rC4 ∧
    windowOf rC4.state "u1" rC4.syncTimestamp = [] :=
  ⟨by decide, rfl,
    syncDevice_second_round_window_empty sC4 "u1" "d1" (0 : Nat) none rC4 (by decide) rfl⟩

/-! ### Claim C6 -/

/-- A database holding one active alias with a description. -/
def sC6 : DB :=
  { aliases := [{ id := "a1", userId := "u1", aliasStr := "x7k", description := some "d",
                  forwardingEmail := "inbox@a.com", isActive := true,
                  createdAt := 0, updatedAt := 0 }],
    emails := [], syncData := [], devices := [], now := 1 }

/-- An update request supplying only a description (the active flag is
omitted). -/
def reqC6 : UpdateAliasReq := { description := some "new", isActive := none }

/-- An update request omitting the description. -/
def reqC6none : UpdateAliasReq := { description := none, isActive := some true }

/-- The state after `updateAlias sC6 "a1" reqC6` succeeds. -/
def sC6post : DB :=
  { aliases := [{ id := "a1", userId := "u1", aliasStr := "x7k",
                  description := some "new", forwardingEmail := "inbox@a.com",
                  isActive := false, createdAt := 0, updatedAt := 1 }],
    emails := [], syncData := [], devices := [], now := 2 }

/-- C6 (counterexample): updating only the description of an active
alias deactivates it — the omitted `isActive` is bound as
`undefined ? 1 : 0 = 0` — so an omitted mutable field does not keep its
previous stored value. -/
theorem updateAlias_clobbers_omitted_active_cex :
    (sC6.aliases.map (fun a => a.isActive)) = [true] ∧
    updateAlias sC6 "a1" reqC6 = .ok sC6post ∧
    (sC6post.aliases.map (fun a => a.isActive)) = [false] :=
  ⟨rfl, rfl, rfl⟩

/-- C6 (amended): an update request that omits the description fails at
bind time (`undefined` cannot be bound) and changes nothing; a request
that supplies the description never modifies the alias string, the
forwarding address, the row id or the owner, but overwrites both
mutable fields: the stored description becomes the supplied value and
the stored active flag becomes true exactly when the request supplies
`isActive: true` — an omitted active flag is stored as false, not kept. -/
theorem updateAlias_overwrites_and_frames (s : DB) (id : String) (req : UpdateAliasReq) :
    (req.description = none →
      updateAlias s id req
        = .error "TypeError: can only bind numbers, strings, bigints, buffers, and null") ∧
    (∀ d s2, req.description = some d → updateAlias s id req = .ok s2 →
      (s2.aliases.map (fun a => (a.id, a.userId, a.aliasStr, a.forwardingEmail))
        = s.aliases.map (fun a => (a.id, a.userId, a.aliasStr, a.forwardingEmail))) ∧
      (s2.aliases.all (fun a =>
        !(a.id == id) || ((a.description == some d) &&
          (a.isActive == (req.isActive == some true))))) = true) := by
  constructor
  · intro h
    simp [updateAlias, h]
  · intro d s2 hd hok
    simp only [updateAlias, hd, Except.ok.injEq] at hok
    subst hok
    constructor
    · simp only [List.map_map]
      apply List.map_congr_left
      intro a _
      by_cases h : a.id = id <;> simp [h]
    · rw [List.all_eq_true]
      intro a ha
      simp only [List.mem_map] at ha
      obtain ⟨b, hb, rfl⟩ := ha
      by_cases h : b.id == id <;> simp [h]

/-- C6 (witness): both branches of the amended theorem at concrete
inputs — the omitted-description request errors, and the concrete
successful update preserves the immutable fields while overwriting the
mutable ones. -/
theorem updateAlias_overwrites_and_frames_witness :
    updateAlias sC6 "a1" reqC6none
      = .error "TypeError: can only bind numbers, strings, bigints, buffers, and null" ∧
    ((sC6post.aliases.map (fun a => (a.id, a.userId, a.aliasStr, a.forwardingEmail))
        = sC6.aliases.map (fun a => (a.id, a.userId, a.aliasStr, a.forwardingEmail))) ∧
     (sC6post.aliases.all (fun a =>
        !(a.id == "a1") || ((a.description == some "new") &&
          (a.isActive == (reqC6.isActive == some true))))) = true) :=
  ⟨(updateAlias_overwrites_and_frames sC6 "a1" reqC6none).1 rfl,
   (updateAlias_overwrites_and_frames sC6 "a1" reqC6).2 "new" sC6post rfl rfl⟩

/-! ### Claim C7 -/

/-- C7: `deleteAlias` removes every email referencing the alias and the
alias row itself, so a subsequent `getEmailsByAliasId` for that id
returns the empty sequence. -/
theorem deleteAlias_cascades (s : DB) (id : String) :
    getEmailsByAliasId (deleteAlias s id) id = [] ∧
    ((deleteAlias s id).emails.all (fun e => !(e.aliasId == id))) = true ∧
    ((deleteAlias s id).aliases.all (fun a => !(a.id == id))) = true := by
  refine ⟨?_, ?_, ?_⟩
  · have h0 : (deleteAlias s id).emails.filter (fun e => e.aliasId == id) = [] := by
      simp only [deleteAlias, deleteAliasRow, deleteEmailsOfAlias]
      rw [List.filter_filter]
      rw [List.filter_eq_nil_iff]
      intro e _
      cases h : e.aliasId == id <;> simp [h]
    unfold getEmailsByAliasId
    rw [h0]
    rfl
  · rw [List.all_eq_true]
    intro e he
    simp only [deleteAlias, deleteAliasRow, deleteEmailsOfAlias, List.mem_filter] at he
    exact he.2
  · rw [List.all_eq_true]
    intro a ha
    simp only [deleteAlias, deleteAliasRow, deleteEmailsOfAlias, List.mem_filter] at ha
    exact ha.2

/-! ### Claim C10 -/

/-- C10: `syncDevice` ignores the supplied `userMasterKey`: its result
(the alias snapshot and sync timestamp) and its database effect (the
device bookkeeping write) are identical for any two keys. -/
theorem syncDevice_key_independent {K : Type} (k1 k2 : K) (s : DB)
    (userId deviceId : String) (lastSyncTimestamp : Option Nat) :
    syncDevice s userId deviceId k1 lastSyncTimestamp
      = syncDevice s userId deviceId k2 lastSyncTimestamp := rfl

/-! ### Claim C5 — schema initialization -/

/-- A table known to the engine: its name and column list. -/
structure TableDef where
  name : String
  cols : List String
deriving DecidableEq, Repr

/-- The observable schema state: the table set and the index set (index
name paired with the indexed table). -/
structure SchemaState where
  tables : List TableDef
  indexes : List (String × String)
deriving DecidableEq, Repr

/-- Whether a table of the given name exists. -/
def tableExists (s : SchemaState) (n : String) : Bool :=
  s.tables.any (fun t => t.name == n)

/-- Whether some table of the given name carries the given column. -/
def colExists (s : SchemaState) (tbl col : String) : Bool :=
  s.tables.any (fun t => t.name == tbl && t.cols.any (fun c => c == col))

/-- Whether an index of the given name exists. -/
def idxExists (s : SchemaState) (n : String) : Bool :=
  s.indexes.any (fun i => i.1 == n)

/-- `CREATE TABLE IF NOT EXISTS n (cols)`: a no-op when the table is
present, otherwise the table is added. -/
def execCreateTable (s : SchemaState) (n : String) (cols : List String) : SchemaState :=
  if tableExists s n then s
  else { s with tables := s.tables ++ [{ name := n, cols := cols }] }

/-- `ALTER TABLE tbl ADD COLUMN col`: errors when the table is missing
or the column already exists ("duplicate column"); both errors are
caught by the initialization loop, leaving the state unchanged —
otherwise the column is appended. -/
def execAlterAdd (s : SchemaState) (tbl col : String) : SchemaState :=
  if !(tableExists s tbl) then s
  else if colExists s tbl col then s
  else
    { s with
      tables := s.tables.map (fun t =>
        if t.name == tbl then { t with cols := t.cols ++ [col] } else t) }

/-- The source's `CREATE TABLE IF NOT EXISTS sync_data (...)` statement
declares the column `dat-id`; the unquoted hyphen is a SQL syntax error,
so executing the statement throws before touching the schema and the
loop's catch swallows the error: the state is unchanged (and equally so
on every rerun). -/
def execBrokenCreateSyncData (s : SchemaState) : SchemaState := s

/-- `CREATE INDEX IF NOT EXISTS n ON tbl(...)`: a no-op when the index
exists, an error (`none`) when the indexed table is missing, otherwise
the index is added. -/
def execCreateIndex (s : SchemaState) (n tbl : String) : Option SchemaState :=
  if idxExists s n then some s
  else if tableExists s tbl then some { s with indexes := s.indexes ++ [(n, tbl)] }
  else none

/-- The final schema entry is one `exec` of four `CREATE INDEX`
statements run in order; the first failure aborts the remaining
statements of the entry (keeping the partial state), and the loop's
catch swallows the error. -/
def execIndexStmts : SchemaState → List (String × String) → SchemaState
  | s, [] => s
  | s, (n, t) :: rest =>
    match execCreateIndex s n t with
    | none => s
    | some s2 => execIndexStmts s2 rest

/-- Column list of `users` as created by the `CREATE TABLE` statement
(it already contains the two later-migrated columns). -/
def usersCols : List String :=
  ["id", "email", "encryption_key", "master_key_salt", "is_admin",
   "created_at", "updated_at"]

/-- Column list of `email_aliases`. -/
def aliasesCols : List String :=
  ["id", "user_id", "alias", "description", "forwarding_email", "is_active",
   "created_at", "updated_at"]

/-- Column list of `emails`. -/
def emailsCols : List String :=
  ["id", "alias_id", "from_email", "to_email", "subject", "content", "is_read",
   "received_at"]

/-- Column list of `devices`. -/
def devicesCols : List String :=
  ["id", "user_id", "device_name", "device_key", "last_sync", "created_at"]

/-- The four `CREATE INDEX IF NOT EXISTS` statements of the final
schema entry, in source order. -/
def idxStmts : List (String × String) :=
  [("idx_email_aliases_user_id", "email_aliases"),
   ("idx_emails_alias_id", "emails"),
   ("idx_devices_user_id", "devices"),
   ("idx_sync_data_user_id", "sync_data")]

/-- `initializeTables` (and the identical statement list of
`initializeTablesAsync`): the fixed ordered DDL statements, each run
under a catch that swallows failures, applied to the schema state. -/
def initializeTables (s0 : SchemaState) : SchemaState :=
  let s1 := execCreateTable s0 "users" usersCols
  let s2 := execAlterAdd s1 "users" "master_key_salt"
  let s3 := execAlterAdd s2 "users" "is_admin"
  let s4 := execCreateTable s3 "email_aliases" aliasesCols
  let s5 := execCreateTable s4 "emails" emailsCols
  let s6 := execCreateTable s5 "devices" devicesCols
  let s7 := execBrokenCreateSyncData s6
  execIndexStmts s7 idxStmts

/-- The schema facts established by a completed initialization run:
the four well-formed tables exist, `users` carries the two migrated
columns, the three indexes over existing tables exist, and the
`sync_data` index exists whenever a `sync_data` table does. -/
def schemaReady (s : SchemaState) : Bool :=
  tableExists s "users" &&
  colExists s "users" "master_key_salt" &&
  colExists s "users" "is_admin" &&
  tableExists s "email_aliases" &&
  tableExists s "emails" &&
  tableExists s "devices" &&
  idxExists s "idx_email_aliases_user_id" &&
  idxExists s "idx_emails_alias_id" &&
  idxExists s "idx_devices_user_id" &&
  (!(tableExists s "sync_data") || idxExists s "idx_sync_data_user_id")

theorem initializeTables_eq (s : SchemaState) :
    initializeTables s =
      execIndexStmts
        (execBrokenCreateSyncData
          (execCreateTable
            (execCreateTable
              (execCreateTable
                (execAlterAdd
                  (execAlterAdd (execCreateTable s "users" usersCols)
                    "users" "master_key_salt")
                  "users" "is_admin")
                "email_aliases" aliasesCols)
              "emails" emailsCols)
            "devices" devicesCols))
        idxStmts := rfl

theorem execIndexStmts_cons (s : SchemaState) (n t : String)
    (rest : List (String × String)) :
    execIndexStmts s ((n, t) :: rest) =
      match execCreateIndex s n t with
      | none => s
      | some s2 => execIndexStmts s2 rest := rfl

theorem execIndexStmts_cons_some (s : SchemaState) (n t : String) (s2 : SchemaState)
    (rest : List (String × String)) (h : execCreateIndex s n t = some s2) :
    execIndexStmts s ((n, t) :: rest) = execIndexStmts s2 rest := by
  rw [execIndexStmts_cons, h]

theorem execIndexStmts_cons_none (s : SchemaState) (n t : String)
    (rest : List (String × String)) (h : execCreateIndex s n t = none) :
    execIndexStmts s ((n, t) :: rest) = s := by
  rw [execIndexStmts_cons, h]

theorem tableExists_congr_tables (s2 s : SchemaState) (h : s2.tables = s.tables)
    (m : String) : tableExists s2 m = tableExists s m := by
  unfold tableExists
  rw [h]

theorem colExists_congr_tables (s2 s : SchemaState) (h : s2.tables = s.tables)
    (tbl col : String) : colExists s2 tbl col = colExists s tbl col := by
  unfold colExists
  rw [h]

theorem tableExists_execCreateTable_self (s : SchemaState) (n : String)
    (cols : List String) : tableExists (execCreateTable s n cols) n = true := by
  unfold execCreateTable
  cases h : tableExists s n
  · simp only [Bool.false_eq_true, if_false]
    simp [tableExists, List.any_append]
  · simpa using h

theorem tableExists_execCreateTable_mono (s : SchemaState) (n : String)
    (cols : List String) (m : String) (h : tableExists s m = true) :
    tableExists (execCreateTable s n cols) m = true := by
  unfold execCreateTable
  split
  · exact h
  · simp only [tableExists, List.any_append] at h ⊢
    simp [h]

theorem any_name_map (l : List TableDef) (f : TableDef → TableDef)
    (hf : ∀ t, (f t).name = t.name) (m : String) :
    (l.map f).any (fun t => t.name == m) = l.any (fun t => t.name == m) := by
  induction l with
  | nil => rfl
  | cons a as ih => simp [hf, ih]

theorem tableExists_execAlterAdd (s : SchemaState) (tbl col m : String) :
    tableExists (execAlterAdd s tbl col) m = tableExists s m := by
  unfold execAlterAdd
  split
  · rfl
  · split
    · rfl
    · unfold tableExists
      apply any_name_map
      intro t
      cases h : t.name == tbl <;> simp [h]

theorem colExists_execCreateTable_mono (s : SchemaState) (n : String)
    (cols : List String) (tbl col : String) (h : colExists s tbl col = true) :
    colExists (execCreateTable s n cols) tbl col = true := by
  unfold execCreateTable
  split
  · exact h
  · simp only [colExists, List.any_append] at h ⊢
    simp [h]

theorem colExists_execAlterAdd_mono (s : SchemaState) (tbl2 col2 tbl col : String)
    (h : colExists s tbl col = true) :
    colExists (execAlterAdd s tbl2 col2) tbl col = true := by
  unfold execAlterAdd
  split
  · exact h
  · split
    · exact h
    · simp only [colExists, List.any_eq_true] at h ⊢
      obtain ⟨t, ht, hp⟩ := h
      refine ⟨if t.name == tbl2 then { t with cols := t.cols ++ [col2] } else t,
        List.mem_map_of_mem _ ht, ?_⟩
      simp only [Bool.and_eq_true] at hp
      cases h2 : t.name == tbl2 <;>
        simp [h2, hp.1, List.any_append, hp.2]

theorem colExists_execAlterAdd_self (s : SchemaState) (tbl col : String)
    (h : tableExists s tbl = true) :
    colExists (execAlterAdd s tbl col) tbl col = true := by
  unfold execAlterAdd
  rw [h]
  simp only [Bool.not_true, Bool.false_eq_true, if_false]
  cases hc : colExists s tbl col
  · simp only [Bool.false_eq_true, if_false]
    simp only [tableExists, List.any_eq_true] at h
    obtain ⟨t, ht, hp⟩ := h
    simp only [colExists, List.any_eq_true]
    refine ⟨{ t with cols := t.cols ++ [col] }, ?_, ?_⟩
    · have : (if t.name == tbl then { t with cols := t.cols ++ [col] } else t)
          = { t with cols := t.cols ++ [col] } := by rw [hp]; rfl
      exact this ▸ List.mem_map_of_mem _ ht
    · simp [hp, List.any_append]
  · simpa using hc

theorem execCreateIndex_step (s : SchemaState) (n t : String)
    (ht : tableExists s t = true) :
    ∃ s2, execCreateIndex s n t = some s2 ∧ idxExists s2 n = true ∧
      s2.tables = s.tables ∧
      ∀ m, idxExists s m = true → idxExists s2 m = true := by
  unfold execCreateIndex
  cases hi : idxExists s n
  · refine ⟨{ tables := s.tables, indexes := s.indexes ++ [(n, t)] },
      by simp [ht], ?_, rfl, ?_⟩
    · simp [idxExists, List.any_append]
    · intro m hm
      simp only [idxExists, List.any_append] at hm ⊢
      simp [hm]
  · exact ⟨s, by simp, hi, rfl, fun m hm => hm⟩

theorem initializeTables_ready (s : SchemaState) :
    schemaReady (initializeTables s) = true := by
  rw [initializeTables_eq]
  set s1 := execCreateTable s "users" usersCols with hs1
  set s2 := execAlterAdd s1 "users" "master_key_salt" with hs2
  set s3 := execAlterAdd s2 "users" "is_admin" with hs3
  set s4 := execCreateTable s3 "email_aliases" aliasesCols with hs4
  set s5 := execCreateTable s4 "emails" emailsCols with hs5
  set s6 := execCreateTable s5 "devices" devicesCols with hs6
  have hu : tableExists s6 "users" = true := by
    rw [hs6, hs5, hs4]
    apply tableExists_execCreateTable_mono
    apply tableExists_execCreateTable_mono
    apply tableExists_execCreateTable_mono
    rw [hs3, hs2]
    rw [tableExists_execAlterAdd, tableExists_execAlterAdd]
    exact tableExists_execCreateTable_self s "users" usersCols
  have hmk : colExists s6 "users" "master_key_salt" = true := by
    rw [hs6, hs5, hs4]
    apply colExists_execCreateTable_mono
    apply colExists_execCreateTable_mono
    apply colExists_execCreateTable_mono
    rw [hs3]
    apply colExists_execAlterAdd_mono
    rw [hs2]
    apply colExists_execAlterAdd_self
    exact tableExists_execCreateTable_self s "users" usersCols
  have had : colExists s6 "users" "is_admin" = true := by
    rw [hs6, hs5, hs4]
    apply colExists_execCreateTable_mono
    apply colExists_execCreateTable_mono
    apply colExists_execCreateTable_mono
    rw [hs3]
    apply colExists_execAlterAdd_self
    rw [hs2, tableExists_execAlterAdd]
    exact tableExists_execCreateTable_self s "users" usersCols
  have hal : tableExists s6 "email_aliases" = true := by
    rw [hs6, hs5]
    apply tableExists_execCreateTable_mono
    apply tableExists_execCreateTable_mono
    exact tableExists_execCreateTable_self s3 "email_aliases" aliasesCols
  have hem : tableExists s6 "emails" = true := by
    rw [hs6]
    apply tableExists_execCreateTable_mono
    exact tableExists_execCreateTable_self s4 "emails" emailsCols
  have hdv : tableExists s6 "devices" = true :=
    tableExists_execCreateTable_self s5 "devices" devicesCols
  show schemaReady (execIndexStmts s6 idxStmts) = true
  simp only [idxStmts]
  obtain ⟨t1, he1, hi1, htab1, hmono1⟩ :=
    execCreateIndex_step s6 "idx_email_aliases_user_id" "email_aliases" hal
  rw [execIndexStmts_cons_some _ _ _ _ _ he1]
  obtain ⟨t2, he2, hi2, htab2, hmono2⟩ :=
    execCreateIndex_step t1 "idx_emails_alias_id" "emails"
      (by rw [tableExists_congr_tables t1 s6 htab1]; exact hem)
  rw [execIndexStmts_cons_some _ _ _ _ _ he2]
  obtain ⟨t3, he3, hi3, htab3, hmono3⟩ :=
    execCreateIndex_step t2 "idx_devices_user_id" "devices"
      (by rw [tableExists_congr_tables t2 t1 htab2, tableExists_congr_tables t1 s6 htab1]
          exact hdv)
  rw [execIndexStmts_cons_some _ _ _ _ _ he3]
  have htab3' : t3.tables = s6.tables := by rw [htab3, htab2, htab1]
  cases hsd : tableExists t3 "sync_data" with
  | true =>
    obtain ⟨t4, he4, hi4, htab4, hmono4⟩ :=
      execCreateIndex_step t3 "idx_sync_data_user_id" "sync_data" hsd
    rw [execIndexStmts_cons_some _ _ _ _ _ he4]
    have htab4' : t4.tables = s6.tables := by rw [htab4, htab3']
    simp only [execIndexStmts, schemaReady, Bool.and_eq_true]
    refine ⟨⟨⟨⟨⟨⟨⟨⟨⟨?_, ?_⟩, ?_⟩, ?_⟩, ?_⟩, ?_⟩, ?_⟩, ?_⟩, ?_⟩, ?_⟩
    · rw [tableExists_congr_tables t4 s6 htab4']; exact hu
    · rw [colExists_congr_tables t4 s6 htab4']; exact hmk
    · rw [colExists_congr_tables t4 s6 htab4']; exact had
    · rw [tableExists_congr_tables t4 s6 htab4']; exact hal
    · rw [tableExists_congr_tables t4 s6 htab4']; exact hem
    · rw [tableExists_congr_tables t4 s6 htab4']; exact hdv
    · exact hmono4 _ (hmono3 _ (hmono2 _ hi1))
    · exact hmono4 _ (hmono3 _ hi2)
    · exact hmono4 _ hi3
    · rw [hi4]; simp
  | false =>
    have hfin : execIndexStmts t3 [("idx_sync_data_user_id", "sync_data")] = t3 := by
      cases hi4 : idxExists t3 "idx_sync_data_user_id"
      · apply execIndexStmts_cons_none
        simp [execCreateIndex, hi4, hsd]
      · rw [execIndexStmts_cons_some _ _ _ t3 _ (by simp [execCreateIndex, hi4])]
        rfl
    rw [hfin]
    simp only [schemaReady, Bool.and_eq_true]
    refine ⟨⟨⟨⟨⟨⟨⟨⟨⟨?_, ?_⟩, ?_⟩, ?_⟩, ?_⟩, ?_⟩, ?_⟩, ?_⟩, ?_⟩, ?_⟩
    · rw [tableExists_congr_tables t3 s6 htab3']; exact hu
    · rw [colExists_congr_tables t3 s6 htab3']; exact hmk
    · rw [colExists_congr_tables t3 s6 htab3']; exact had
    · rw [tableExists_congr_tables t3 s6 htab3']; exact hal
    · rw [tableExists_congr_tables t3 s6 htab3']; exact hem
    · rw [tableExists_congr_tables t3 s6 htab3']; exact hdv
    · exact hmono3 _ (hmono2 _ hi1)
    · exact hmono3 _ hi2
    · exact hi3
    · rw [hsd]; simp

theorem initializeTables_fixpoint (s : SchemaState) (h : schemaReady s = true) :
    initializeTables s = s := by
  simp only [schemaReady, Bool.and_eq_true, and_assoc] at h
  obtain ⟨h1, h2, h3, h4, h5, h6, h7, h8, h9, h10⟩ := h
  rw [initializeTables_eq]
  have e1 : execCreateTable s "users" usersCols = s := by
    simp [execCreateTable, h1]
  rw [e1]
  have e2 : execAlterAdd s "users" "master_key_salt" = s := by
    simp [execAlterAdd, h1, h2]
  rw [e2]
  have e3 : execAlterAdd s "users" "is_admin" = s := by
    simp [execAlterAdd, h1, h3]
  rw [e3]
  have e4 : execCreateTable s "email_aliases" aliasesCols = s := by
    simp [execCreateTable, h4]
  rw [e4]
  have e5 : execCreateTable s "emails" emailsCols = s := by
    simp [execCreateTable, h5]
  rw [e5]
  have e6 : execCreateTable s "devices" devicesCols = s := by
    simp [execCreateTable, h6]
  rw [e6]
  show execIndexStmts s idxStmts = s
  simp only [idxStmts]
  rw [execIndexStmts_cons_some _ _ _ s _ (by simp [execCreateIndex, h7])]
  rw [execIndexStmts_cons_some _ _ _ s _ (by simp [execCreateIndex, h8])]
  rw [execIndexStmts_cons_some _ _ _ s _ (by simp [execCreateIndex, h9])]
  rw [Bool.or_eq_true, Bool.not_eq_true'] at h10
  rcases h10 with h10 | h10
  · cases hi4 : idxExists s "idx_sync_data_user_id"
    · apply execIndexStmts_cons_none
      simp [execCreateIndex, hi4, h10]
    · rw [execIndexStmts_cons_some _ _ _ s _ (by simp [execCreateIndex, hi4])]
      rfl
  · rw [execIndexStmts_cons_some _ _ _ s _ (by simp [execCreateIndex, h10])]
    rfl

/-- C5: schema initialization is idempotent — running the fixed ordered
DDL list a second time (and hence any number of times) leaves the table
and index set of the first run unchanged, and the initializer itself is
a total function: every statement failure (including the malformed
`sync_data` create, which fails identically on every run) is caught by
the per-statement handler, so no error escapes. -/
theorem initializeTables_idempotent (s : SchemaState) :
    initializeTables (initializeTables s) = initializeTables s :=
  initializeTables_fixpoint _ (initializeTables_ready s)

/-! ### Claim C8 — best-effort sync-entry decryption -/

/-- `SyncService.decryptSyncData`: returns null for an entry with no
ciphertext; otherwise decrypts and JSON-parses it inside a `try`/`catch`
whose `catch` returns null, so any failure yields `none` for that entry
only.  `ClientEncryption.decrypt` lives in `src/lib/encryption.ts`,
which is not among the provided sources; it is abstracted as the
parameter `dec` (authenticated decryption that fails on a wrong key or
corrupt ciphertext), and `JSON.parse` as the parameter `parse`. -/
def decryptSyncData {K V : Type} (dec : String → K → Option String)
    (parse : String → Option V) (syncData : SyncRow) (decryptionKey : K) : Option V :=
  if syncData.encryptedData == "" then none
  else
    match dec syncData.encryptedData decryptionKey with
    | none => none
    | some s => parse s

/-- Per-entry decryption of a sync result: each entry of the round is
decrypted independently by `decryptSyncData`. -/
def processSyncEntries {K V : Type} (dec : String → K → Option String)
    (parse : String → Option V) (key : K) (entries : List SyncRow) : List (Option V) :=
  entries.map (fun e => decryptSyncData dec parse e key)

/-- C8: if decrypting one entry fails, `decryptSyncData` returns `none`
for that entry without raising, and the surrounding entries of the same
sync result decrypt to exactly what they would regardless — the failing
entry contributes one `none` in place, and the results on either side
are untouched. -/
theorem decryptSyncData_failure_isolated {K V : Type}
    (dec : String → K → Option String) (parse : String → Option V) (key : K)
    (e : SyncRow) (l1 l2 : List SyncRow)
    (hfail : dec e.encryptedData key = none) :
    decryptSyncData dec parse e key = none ∧
    processSyncEntries dec parse key (l1 ++ e :: l2) =
      processSyncEntries dec parse key l1 ++
        none :: processSyncEntries dec parse key l2 := by
  have h1 : decryptSyncData dec parse e key = none := by
    unfold decryptSyncData
    cases h : (e.encryptedData == "") <;> simp [h, hfail]
  exact ⟨h1, by simp [processSyncEntries, h1]⟩

/-- A sync entry whose ciphertext does not authenticate under the key at
hand. -/
def eC8 : SyncRow :=
  { id := "s9", userId := "u1", deviceId := "d1", dataType := "alias", dataId := "a9",
    encryptedData := "zzz", operation := "update", timestamp := 1 }

/-- A neighbouring sync entry with no ciphertext (metadata-only). -/
def eC8a : SyncRow :=
  { id := "s8", userId := "u1", deviceId := "d1", dataType := "alias", dataId := "a8",
    encryptedData := "", operation := "delete", timestamp := 0 }

/-- A neighbouring sync entry whose ciphertext also fails to decrypt. -/
def eC8b : SyncRow :=
  { id := "s10", userId := "u1", deviceId := "d1", dataType := "alias", dataId := "a10",
    encryptedData := "yyy", operation := "create", timestamp := 2 }

/-- Decryption under a wrong master key: authentication fails on every
input. -/
def decFailC8 : String → Unit → Option String := fun _ _ => none

/-- A parser standing in for `JSON.parse`. -/
def parseC8 : String → Option Nat := fun s => if s == "1" then some 1 else none

/-- C8 (witness): the isolation theorem instantiated on a concrete
three-entry sync result whose middle entry fails to decrypt. -/
theorem decryptSyncData_failure_isolated_witness :
    decFailC8 eC8.encryptedData () = none ∧
    (decryptSyncData decFailC8 parseC8 eC8 () = none ∧
     processSyncEntries decFailC8 parseC8 () ([eC8a] ++ eC8 :: [eC8b]) =
       processSyncEntries decFailC8 parseC8 () [eC8a] ++
         none :: processSyncEntries decFailC8 parseC8 () [eC8b]) :=
  ⟨rfl, decryptSyncData_failure_isolated decFailC8 parseC8 () eC8 [eC8a] [eC8b] rfl⟩

/-! ### Claim C9 — master-key wrap/unwrap -/

/-- The base64 alphabet in index order. -/
def sextetChars : List Char :=
  ("ABCDEFGHIJKLMNOPQRSTUVWXYZabcdefghijklmnopqrstuvwxyz0123456789+/").data

/-- Map a sextet (0..63) to its base64 character. -/
def sextetToChar (n : Nat) : Char := sextetChars.getD n 'A'

/-- Map a base64 character back to its sextet. -/
def charToSextet (c : Char) : Option Nat := sextetChars.findIdx? (fun d => d == c)

theorem charToSextet_sextetToChar :
    ∀ n, n < 64 → charToSextet (sextetToChar n) = some n := by decide

theorem sextetToChar_ne_pad :
    ∀ n, n < 64 → (sextetToChar n == '=') = false := by decide

/-- `Buffer.prototype.toString('base64')`: 3-byte groups become 4
characters, with `=` padding for a 1- or 2-byte tail. -/
def b64encode : List Nat → List Char
  | [] => []
  | [b0] =>
    [sextetToChar (b0 / 4), sextetToChar (b0 % 4 * 16), '=', '=']
  | [b0, b1] =>
    [sextetToChar (b0 / 4), sextetToChar (b0 % 4 * 16 + b1 / 16),
     sextetToChar (b1 % 16 * 4), '=']
  | b0 :: b1 :: b2 :: rest =>
    sextetToChar (b0 / 4) :: sextetToChar (b0 % 4 * 16 + b1 / 16) ::
    sextetToChar (b1 % 16 * 4 + b2 / 64) :: sextetToChar (b2 % 64) ::
    b64encode rest

/-- `Buffer.from(_, 'base64')`: 4-character groups back to bytes,
honouring `=` padding; unknown characters fail. -/
def b64decode : List Char → Option (List Nat)
  | [] => some []
  | c1 :: c2 :: c3 :: c4 :: rest =>
    match charToSextet c1, charToSextet c2 with
    | some x, some y =>
      if c3 == '=' then some [x * 4 + y / 16]
      else
        match charToSextet c3 with
        | some z =>
          if c4 == '=' then some [x * 4 + y / 16, y % 16 * 16 + z / 4]
          else
            match charToSextet c4 with
            | some w =>
              match b64decode rest with
              | some tl =>
                some ((x * 4 + y / 16) :: (y % 16 * 16 + z / 4) :: (z % 4 * 64 + w) :: tl)
              | none => none
            | none => none
        | none => none
    | _, _ => none
  | _ => none

theorem b64_roundtrip : ∀ (bs : List Nat), (∀ b ∈ bs, b < 256) →
    b64decode (b64encode bs) = some bs
  | [], _ => rfl
  | [b0], h => by
    have hb0 : b0 < 256 := h b0 (by simp)
    have hx := charToSextet_sextetToChar (b0 / 4) (by omega)
    have hy := charToSextet_sextetToChar (b0 % 4 * 16) (by omega)
    simp [b64encode, b64decode, hx, hy]
    omega
  | [b0, b1], h => by
    have hb0 : b0 < 256 := h b0 (by simp)
    have hb1 : b1 < 256 := h b1 (by simp)
    have hx := charToSextet_sextetToChar (b0 / 4) (by omega)
    have hy := charToSextet_sextetToChar (b0 % 4 * 16 + b1 / 16) (by omega)
    have hz := charToSextet_sextetToChar (b1 % 16 * 4) (by omega)
    have hne := sextetToChar_ne_pad (b1 % 16 * 4) (by omega)
    simp [b64encode, b64decode, hx, hy, hz, hne]
    omega
  | b0 :: b1 :: b2 :: rest, h => by
    have hb0 : b0 < 256 := h b0 (by simp)
    have hb1 : b1 < 256 := h b1 (by simp)
    have hb2 : b2 < 256 := h b2 (by simp)
    have ih := b64_roundtrip rest (fun b hb => h b (by simp [hb]))
    have hx := charToSextet_sextetToChar (b0 / 4) (by omega)
    have hy := charToSextet_sextetToChar (b0 % 4 * 16 + b1 / 16) (by omega)
    have hz := charToSextet_sextetToChar (b1 % 16 * 4 + b2 / 64) (by omega)
    have hw := charToSextet_sextetToChar (b2 % 64) (by omega)
    have hne3 := sextetToChar_ne_pad (b1 % 16 * 4 + b2 / 64) (by omega)
    have hne4 := sextetToChar_ne_pad (b2 % 64) (by omega)
    simp [b64encode, b64decode, hx, hy, hz, hw, hne3, hne4, ih]
    omega

/-- The fixed service-wide wrapping secret
(`emailalies-service-key-2024` in `scripts/init-admin-users.js`). -/
def servicePassword : String := "emailalies-service-key-2024"

/-- `MasterKeyManager.encryptMasterKey` (wrap): derive a key from the
service secret and the user's salt (`crypto.scryptSync`, abstracted as
`kdf`), encrypt the master key under it with a fresh 16-byte IV
(`aes-256-cbc`, abstracted as `enc`), and return
`base64(iv ++ ciphertext)`.  The random IV is the parameter `iv`. -/
def encryptMasterKey (enc : List Nat → List Nat → List Nat → List Nat)
    (kdf : String → List Nat → List Nat) (masterKey salt iv : List Nat) : String :=
  String.mk (b64encode (iv ++ enc (kdf servicePassword salt) iv masterKey))

/-- Modelled from the spec: `unwrap(blob, salt) -> key` —
`MasterKeyManager.decryptMasterKey` lives in `src/lib/encryption.ts`,
which is not among the provided sources (the sync route only calls it).
Per the spec's Key Manager contract it inverts the wrap layout:
base64-decode the blob, split off the 16-byte IV prefix, and decrypt
the remainder with the key derived from the service secret and the
salt; a malformed blob fails with DecryptionFailed (`none`). -/
def decryptMasterKey (dec : List Nat → List Nat → List Nat → List Nat)
    (kdf : String → List Nat → List Nat) (blob : String) (salt : List Nat) :
    Option (List Nat) :=
  match b64decode blob.data with
  | none => none
  | some bytes =>
    if bytes.length < 16 then none
    else some (dec (kdf servicePassword salt) (bytes.take 16) (bytes.drop 16))

/-- C9: the key-wrapping round-trip — for every generated master key
and salt (and fresh 16-byte IV), unwrapping the wrapped blob under the
same salt returns the original key, given that the block cipher
decrypts what it encrypts under the same derived key and IV. -/
theorem unwrap_wrap_roundtrip (enc dec : List Nat → List Nat → List Nat → List Nat)
    (kdf : String → List Nat → List Nat) (masterKey salt iv : List Nat)
    (hiv : iv.length = 16)
    (hivb : ∀ b ∈ iv, b < 256)
    (hct : ∀ b ∈ enc (kdf servicePassword salt) iv masterKey, b < 256)
    (hdec : dec (kdf servicePassword salt) iv
        (enc (kdf servicePassword salt) iv masterKey) = masterKey) :
    decryptMasterKey dec kdf (encryptMasterKey enc kdf masterKey salt iv) salt
      = some masterKey := by
  unfold decryptMasterKey encryptMasterKey
  have hbytes : ∀ b ∈ iv ++ enc (kdf servicePassword salt) iv masterKey, b < 256 := by
    intro b hb
    rcases List.mem_append.mp hb with h | h
    · exact hivb b h
    · exact hct b h
  rw [show (String.mk (b64encode (iv ++ enc (kdf servicePassword salt) iv masterKey))).data
      = b64encode (iv ++ enc (kdf servicePassword salt) iv masterKey) from rfl]
  rw [b64_roundtrip _ hbytes]
  dsimp only
  have hlen : ¬ (iv ++ enc (kdf servicePassword salt) iv masterKey).length < 16 := by
    rw [List.length_append, hiv]
    omega
  rw [if_neg hlen]
  have ht : (iv ++ enc (kdf servicePassword salt) iv masterKey).take 16 = iv := by
    rw [← hiv]
    exact List.take_left _ _
  have hd : (iv ++ enc (kdf servicePassword salt) iv masterKey).drop 16
      = enc (kdf servicePassword salt) iv masterKey := by
    rw [← hiv]
    exact List.drop_left _ _
  rw [ht, hd, hdec]

/-- A fresh 16-byte IV. -/
def ivC9 : List Nat := List.replicate 16 7

/-- A generated master key (any byte list; the generator draws 32
random bytes). -/
def keyC9 : List Nat := [202, 9, 77]

/-- The identity stand-in for the block cipher (encryption and
decryption coincide and invert each other). -/
def cipherIdC9 : List Nat → List Nat → List Nat → List Nat := fun _ _ m => m

/-- A key-derivation stand-in. -/
def kdfC9 : String → List Nat → List Nat := fun _ _ => [0]

/-- C9 (witness): the round-trip instantiated at a concrete key, salt
and IV. -/
theorem unwrap_wrap_roundtrip_witness :
    ivC9.length = 16 ∧
    decryptMasterKey cipherIdC9 kdfC9
      (encryptMasterKey cipherIdC9 kdfC9 keyC9 [1] ivC9) [1] = some keyC9 :=
  ⟨rfl,
    unwrap_wrap_roundtrip cipherIdC9 cipherIdC9 kdfC9 keyC9 [1] ivC9 rfl
      (by decide) (by decide) rfl⟩
